import Mathlib

/-!
Shallow embedding of the tile-slope core of `src/tile_map.cpp` and the
add-bits macro of `src/macros.h`, with theorems checking the specification's
claims about them.

Heights are modelled as `Nat` in the height-map (the C `TileHeight` returns an
unsigned value) and as `Int` inside the classifier (the C locals are `int`).
-/

namespace OTTD

/-- Modelled from the spec: the slope value is a bitmask over five flags, one
bit per corner (N, W, E, S) plus one steep bit.  The bit positions are those of
the original `Slope` enum (declared outside the excerpt); the claims only
depend on the five flags being distinct single bits. -/
def SLOPE_FLAT : Nat := 0

/-- West corner flag of the slope bitmask. -/
def SLOPE_W : Nat := 1

/-- South corner flag of the slope bitmask. -/
def SLOPE_S : Nat := 2

/-- East corner flag of the slope bitmask. -/
def SLOPE_E : Nat := 4

/-- North corner flag of the slope bitmask. -/
def SLOPE_N : Nat := 8

/-- Steep flag of the slope bitmask. -/
def SLOPE_STEEP : Nat := 16

/-- Modelled from the spec: the fixed per-height-unit pixel scale constant
(`TILE_HEIGHT`, declared outside the excerpt).  Its concrete value is
immaterial to the claims, which only mention "the fixed scale". -/
def TILE_HEIGHT : Int := 8

/-- `min` folded over four values the way `GetTileSlopeGivenHeight` computes
`hmin`: `min(min(hnorth, hwest), min(heast, hsouth))`. -/
def min4 (a b c d : Int) : Int := min (min a b) (min c d)

/-- `max` folded over four values the way `GetTileSlopeGivenHeight` computes
`hmax`: `max(max(hnorth, hwest), max(heast, hsouth))`. -/
def max4 (a b c d : Int) : Int := max (max a b) (max c d)

/-- Whether flag `b` of slope mask `r` is present (`r & b` non-zero). -/
def hasSlopeBit (r b : Nat) : Bool := r &&& b ≠ 0

/-- `GetTileSlopeGivenHeight` from `tile_map.cpp`: classify four corner
heights into a slope bitmask and the minimum height.  The C function writes
`hmin` through an optional out-pointer; here the pair is always returned. -/
def GetTileSlopeGivenHeight (hnorth hwest heast hsouth : Int) : Nat × Int :=
  let hmin := min4 hnorth hwest heast hsouth
  let hmax := max4 hnorth hwest heast hsouth
  let r := SLOPE_FLAT
  let r := if hnorth ≠ hmin then r + SLOPE_N else r
  let r := if hwest ≠ hmin then r + SLOPE_W else r
  let r := if heast ≠ hmin then r + SLOPE_E else r
  let r := if hsouth ≠ hmin then r + SLOPE_S else r
  let r := if hmax - hmin = 2 then r + SLOPE_STEEP else r
  (r, hmin)

/-- The map context the tile accessors read: dimensions, the stored height-map
(`TileHeight`) and the outside-map height function (`TileHeightOutsideMap`),
both external collaborators of the excerpt. -/
structure Map where
  sizeX : Nat
  sizeY : Nat
  height : Nat → Nat
  outsideHeight : Int → Int → Nat

/-- Modelled from the spec: `MapSize`, the number of addressable tiles. -/
def Map.MapSize (m : Map) : Nat := m.sizeX * m.sizeY

/-- Modelled from the spec: `TileX`, the x coordinate of a tile index. -/
def Map.TileX (m : Map) (t : Nat) : Nat := t % m.sizeX

/-- Modelled from the spec: `TileY`, the y coordinate of a tile index. -/
def Map.TileY (m : Map) (t : Nat) : Nat := t / m.sizeX

/-- Modelled from the spec: `MapMaxX`, the maximum x coordinate. -/
def Map.MapMaxX (m : Map) : Nat := m.sizeX - 1

/-- Modelled from the spec: `MapMaxY`, the maximum y coordinate. -/
def Map.MapMaxY (m : Map) : Nat := m.sizeY - 1

/-- Modelled from the spec: `TileDiffXY(dx, dy)`, the index offset of the
tile `(dx, dy)` away ("tile + (1,0) = West corner" etc.). -/
def Map.TileDiffXY (m : Map) (dx dy : Nat) : Nat := dy * m.sizeX + dx

/-- Modelled from the spec: `IsInnerTile`, true for tiles not on the extreme
max-X or max-Y row of the grid. -/
def Map.IsInnerTile (m : Map) (t : Nat) : Bool :=
  decide (m.TileX t < m.MapMaxX) && decide (m.TileY t < m.MapMaxY)

/-- `GetTileSlope` from `tile_map.cpp`: slope of a tile inside the map,
paired with the z height the C function writes through its out-pointer. -/
def Map.GetTileSlope (m : Map) (t : Nat) : Nat × Int :=
  if !m.IsInnerTile t then (SLOPE_FLAT, (m.height t : Int))
  else
    GetTileSlopeGivenHeight (m.height t)
      (m.height (t + m.TileDiffXY 1 0))
      (m.height (t + m.TileDiffXY 0 1))
      (m.height (t + m.TileDiffXY 1 1))

/-- `IsTileFlat` from `tile_map.cpp`.  The second component is the height the
C function writes through its out-pointer: `none` when it writes nothing
(the early `return false` paths leave `*h` untouched). -/
def Map.IsTileFlat (m : Map) (t : Nat) : Bool × Option Int :=
  if !m.IsInnerTile t then (true, some (m.height t : Int))
  else
    let z := m.height t
    if m.height (t + m.TileDiffXY 1 0) ≠ z then (false, none)
    else if m.height (t + m.TileDiffXY 0 1) ≠ z then (false, none)
    else if m.height (t + m.TileDiffXY 1 1) ≠ z then (false, none)
    else (true, some (z : Int))

/-- `GetTilePixelSlopeOutsideMap` from `tile_map.cpp`: slope of a tile outside
the map, with the height out-parameter scaled by `TILE_HEIGHT`. -/
def Map.GetTilePixelSlopeOutsideMap (m : Map) (x y : Int) : Nat × Int :=
  let hnorth := m.outsideHeight x y
  let hwest := m.outsideHeight (x + 1) y
  let heast := m.outsideHeight x (y + 1)
  let hsouth := m.outsideHeight (x + 1) (y + 1)
  let p := GetTileSlopeGivenHeight hnorth hwest heast hsouth
  (p.1, p.2 * TILE_HEIGHT)

/-- `GetTileZ` from `tile_map.cpp`: bottom height of a tile inside the map. -/
def Map.GetTileZ (m : Map) (t : Nat) : Int :=
  if m.TileX t = m.MapMaxX ∨ m.TileY t = m.MapMaxY then 0
  else
    let h : Int := m.height t
    let h := min h (m.height (t + m.TileDiffXY 1 0) : Int)
    let h := min h (m.height (t + m.TileDiffXY 0 1) : Int)
    let h := min h (m.height (t + m.TileDiffXY 1 1) : Int)
    h

/-- `GetTileMaxZ` from `tile_map.cpp`: top height of a tile inside the map.
On the max-X / max-Y rows it evaluates the outside-map height function at the
tile's coordinates. -/
def Map.GetTileMaxZ (m : Map) (t : Nat) : Int :=
  if m.TileX t = m.MapMaxX ∨ m.TileY t = m.MapMaxY then
    (m.outsideHeight (m.TileX t) (m.TileY t) : Int)
  else
    let h : Int := m.height t
    let h := max h (m.height (t + m.TileDiffXY 1 0) : Int)
    let h := max h (m.height (t + m.TileDiffXY 0 1) : Int)
    let h := max h (m.height (t + m.TileDiffXY 1 1) : Int)
    h

/-- `AB(x, s, n, i)` from `macros.h`: add `i` to the `n`-bit window of `x`
starting at bit `s`, over 32-bit unsigned arithmetic.  Every C operation on
`unsigned int` is modelled with an explicit reduction `% 2 ^ 32`; C's `~mask`
is modelled as xor with the all-ones word. -/
def AB (x s n i : Nat) : Nat :=
  let mask := ((((1 <<< n) - 1) % 2 ^ 32) <<< s) % 2 ^ 32
  (x &&& (mask ^^^ (2 ^ 32 - 1))) |||
    ((x + (i <<< s) % 2 ^ 32) % 2 ^ 32 &&& mask)

/-- A concrete 2×2 map whose stored heights are all 1 and whose outside-map
height function is constantly 3, used to instantiate the theorems.  Its only
inner tile is index 0; indices 1, 2, 3 are on the max-X or max-Y row. -/
def exMap : Map :=
  { sizeX := 2, sizeY := 2, height := fun _ => 1, outsideHeight := fun _ _ => 3 }

/-! Helper lemmas about `min4`, `max4` and the classifier. -/

lemma min4_le (a b c d : Int) :
    min4 a b c d ≤ a ∧ min4 a b c d ≤ b ∧ min4 a b c d ≤ c ∧ min4 a b c d ≤ d := by
  simp only [min4]; omega

lemma min4_mem (a b c d : Int) :
    min4 a b c d = a ∨ min4 a b c d = b ∨ min4 a b c d = c ∨ min4 a b c d = d := by
  simp only [min4]; omega

lemma le_max4 (a b c d : Int) :
    a ≤ max4 a b c d ∧ b ≤ max4 a b c d ∧ c ≤ max4 a b c d ∧ d ≤ max4 a b c d := by
  simp only [max4]; omega

lemma max4_mem (a b c d : Int) :
    max4 a b c d = a ∨ max4 a b c d = b ∨ max4 a b c d = c ∨ max4 a b c d = d := by
  simp only [max4]; omega

lemma classify_snd (hn hw he hs : Int) :
    (GetTileSlopeGivenHeight hn hw he hs).2 = min4 hn hw he hs := by
  simp [GetTileSlopeGivenHeight]

lemma classify_fst (hn hw he hs : Int) :
    (GetTileSlopeGivenHeight hn hw he hs).1 =
      (((((if hn ≠ min4 hn hw he hs then SLOPE_N else 0) +
        if hw ≠ min4 hn hw he hs then SLOPE_W else 0) +
        if he ≠ min4 hn hw he hs then SLOPE_E else 0) +
        if hs ≠ min4 hn hw he hs then SLOPE_S else 0) +
        if max4 hn hw he hs - min4 hn hw he hs = 2 then SLOPE_STEEP else 0) := by
  simp only [GetTileSlopeGivenHeight, SLOPE_FLAT]
  by_cases h1 : hn ≠ min4 hn hw he hs <;>
  by_cases h2 : hw ≠ min4 hn hw he hs <;>
  by_cases h3 : he ≠ min4 hn hw he hs <;>
  by_cases h4 : hs ≠ min4 hn hw he hs <;>
  by_cases h5 : max4 hn hw he hs - min4 hn hw he hs = 2 <;>
    simp [h1, h2, h3, h4, h5]

lemma classify_hasN (hn hw he hs : Int) :
    hasSlopeBit (GetTileSlopeGivenHeight hn hw he hs).1 SLOPE_N
      = decide (hn ≠ min4 hn hw he hs) := by
  rw [classify_fst]
  by_cases h1 : hn ≠ min4 hn hw he hs <;>
  by_cases h2 : hw ≠ min4 hn hw he hs <;>
  by_cases h3 : he ≠ min4 hn hw he hs <;>
  by_cases h4 : hs ≠ min4 hn hw he hs <;>
  by_cases h5 : max4 hn hw he hs - min4 hn hw he hs = 2 <;>
    simp [h1, h2, h3, h4, h5, hasSlopeBit, SLOPE_N, SLOPE_W, SLOPE_E, SLOPE_S, SLOPE_STEEP] <;>
    decide

lemma classify_hasW (hn hw he hs : Int) :
    hasSlopeBit (GetTileSlopeGivenHeight hn hw he hs).1 SLOPE_W
      = decide (hw ≠ min4 hn hw he hs) := by
  rw [classify_fst]
  by_cases h1 : hn ≠ min4 hn hw he hs <;>
  by_cases h2 : hw ≠ min4 hn hw he hs <;>
  by_cases h3 : he ≠ min4 hn hw he hs <;>
  by_cases h4 : hs ≠ min4 hn hw he hs <;>
  by_cases h5 : max4 hn hw he hs - min4 hn hw he hs = 2 <;>
    simp [h1, h2, h3, h4, h5, hasSlopeBit, SLOPE_N, SLOPE_W, SLOPE_E, SLOPE_S, SLOPE_STEEP] <;>
    decide

lemma classify_hasE (hn hw he hs : Int) :
    hasSlopeBit (GetTileSlopeGivenHeight hn hw he hs).1 SLOPE_E
      = decide (he ≠ min4 hn hw he hs) := by
  rw [classify_fst]
  by_cases h1 : hn ≠ min4 hn hw he hs <;>
  by_cases h2 : hw ≠ min4 hn hw he hs <;>
  by_cases h3 : he ≠ min4 hn hw he hs <;>
  by_cases h4 : hs ≠ min4 hn hw he hs <;>
  by_cases h5 : max4 hn hw he hs - min4 hn hw he hs = 2 <;>
    simp [h1, h2, h3, h4, h5, hasSlopeBit, SLOPE_N, SLOPE_W, SLOPE_E, SLOPE_S, SLOPE_STEEP] <;>
    decide

lemma classify_hasS (hn hw he hs : Int) :
    hasSlopeBit (GetTileSlopeGivenHeight hn hw he hs).1 SLOPE_S
      = decide (hs ≠ min4 hn hw he hs) := by
  rw [classify_fst]
  by_cases h1 : hn ≠ min4 hn hw he hs <;>
  by_cases h2 : hw ≠ min4 hn hw he hs <;>
  by_cases h3 : he ≠ min4 hn hw he hs <;>
  by_cases h4 : hs ≠ min4 hn hw he hs <;>
  by_cases h5 : max4 hn hw he hs - min4 hn hw he hs = 2 <;>
    simp [h1, h2, h3, h4, h5, hasSlopeBit, SLOPE_N, SLOPE_W, SLOPE_E, SLOPE_S, SLOPE_STEEP] <;>
    decide

lemma classify_hasSteep (hn hw he hs : Int) :
    hasSlopeBit (GetTileSlopeGivenHeight hn hw he hs).1 SLOPE_STEEP
      = decide (max4 hn hw he hs - min4 hn hw he hs = 2) := by
  rw [classify_fst]
  by_cases h1 : hn ≠ min4 hn hw he hs <;>
  by_cases h2 : hw ≠ min4 hn hw he hs <;>
  by_cases h3 : he ≠ min4 hn hw he hs <;>
  by_cases h4 : hs ≠ min4 hn hw he hs <;>
  by_cases h5 : max4 hn hw he hs - min4 hn hw he hs = 2 <;>
    simp [h1, h2, h3, h4, h5, hasSlopeBit, SLOPE_N, SLOPE_W, SLOPE_E, SLOPE_S, SLOPE_STEEP] <;>
    decide

lemma classify_flat_iff (hn hw he hs : Int) :
    (GetTileSlopeGivenHeight hn hw he hs).1 = SLOPE_FLAT ↔
      (hw = hn ∧ he = hn ∧ hs = hn) := by
  have hm := min4_le hn hw he hs
  have hmm := min4_mem hn hw he hs
  have hM := le_max4 hn hw he hs
  have hMm := max4_mem hn hw he hs
  rw [classify_fst]
  by_cases h1 : hn ≠ min4 hn hw he hs <;>
  by_cases h2 : hw ≠ min4 hn hw he hs <;>
  by_cases h3 : he ≠ min4 hn hw he hs <;>
  by_cases h4 : hs ≠ min4 hn hw he hs <;>
  by_cases h5 : max4 hn hw he hs - min4 hn hw he hs = 2 <;>
    simp [h1, h2, h3, h4, h5, SLOPE_FLAT, SLOPE_N, SLOPE_W, SLOPE_E, SLOPE_S, SLOPE_STEEP] <;>
    omega

lemma classify_flat_iff_spread (hn hw he hs : Int) :
    (GetTileSlopeGivenHeight hn hw he hs).1 = SLOPE_FLAT ↔
      max4 hn hw he hs = min4 hn hw he hs := by
  rw [classify_flat_iff]
  have hm := min4_le hn hw he hs
  have hmm := min4_mem hn hw he hs
  have hM := le_max4 hn hw he hs
  have hMm := max4_mem hn hw he hs
  constructor <;> intro h <;> omega

lemma min4_le_all (v : Fin 4 → Int) (j : Fin 4) :
    min4 (v 0) (v 1) (v 2) (v 3) ≤ v j := by
  have h := min4_le (v 0) (v 1) (v 2) (v 3)
  match j with
  | ⟨0, _⟩ => exact h.1
  | ⟨1, _⟩ => exact h.2.1
  | ⟨2, _⟩ => exact h.2.2.1
  | ⟨3, _⟩ => exact h.2.2.2

lemma le_max4_all (v : Fin 4 → Int) (j : Fin 4) :
    v j ≤ max4 (v 0) (v 1) (v 2) (v 3) := by
  have h := le_max4 (v 0) (v 1) (v 2) (v 3)
  match j with
  | ⟨0, _⟩ => exact h.1
  | ⟨1, _⟩ => exact h.2.1
  | ⟨2, _⟩ => exact h.2.2.1
  | ⟨3, _⟩ => exact h.2.2.2

lemma min4_comp_perm (v : Fin 4 → Int) (σ : Equiv.Perm (Fin 4)) :
    min4 (v (σ 0)) (v (σ 1)) (v (σ 2)) (v (σ 3)) = min4 (v 0) (v 1) (v 2) (v 3) := by
  have hleσ : ∀ j : Fin 4, min4 (v (σ 0)) (v (σ 1)) (v (σ 2)) (v (σ 3)) ≤ v j := by
    intro j
    have hmem := min4_le_all (fun k => v (σ k)) (σ.symm j)
    simpa [Equiv.apply_symm_apply] using hmem
  apply le_antisymm
  · rcases min4_mem (v 0) (v 1) (v 2) (v 3) with h | h | h | h <;> rw [h] <;> exact hleσ _
  · rcases min4_mem (v (σ 0)) (v (σ 1)) (v (σ 2)) (v (σ 3)) with h | h | h | h <;> rw [h] <;>
      exact min4_le_all v _

lemma max4_comp_perm (v : Fin 4 → Int) (σ : Equiv.Perm (Fin 4)) :
    max4 (v (σ 0)) (v (σ 1)) (v (σ 2)) (v (σ 3)) = max4 (v 0) (v 1) (v 2) (v 3) := by
  have hgeσ : ∀ j : Fin 4, v j ≤ max4 (v (σ 0)) (v (σ 1)) (v (σ 2)) (v (σ 3)) := by
    intro j
    have hmem := le_max4_all (fun k => v (σ k)) (σ.symm j)
    simpa [Equiv.apply_symm_apply] using hmem
  apply le_antisymm
  · rcases max4_mem (v (σ 0)) (v (σ 1)) (v (σ 2)) (v (σ 3)) with h | h | h | h <;> rw [h] <;>
      exact le_max4_all v _
  · rcases max4_mem (v 0) (v 1) (v 2) (v 3) with h | h | h | h <;> rw [h] <;> exact hgeσ _

/-! Helper lemmas for the `AB` bit-window addition. -/

lemma testBit_maskAB (s n j : Nat) (h : s + n ≤ 32) :
    (((((1 <<< n) - 1) % 2 ^ 32) <<< s) % 2 ^ 32).testBit j
      = decide (s ≤ j ∧ j < s + n) := by
  have hn : (1 <<< n) - 1 = 2 ^ n - 1 := by
    rw [Nat.one_shiftLeft]
  have hmod : (2 ^ n - 1) % 2 ^ 32 = 2 ^ n - 1 := by
    apply Nat.mod_eq_of_lt
    have : (2:Nat) ^ n ≤ 2 ^ 32 := Nat.pow_le_pow_right (by norm_num) (by omega)
    omega
  rw [hn, hmod]
  rw [Nat.testBit_mod_two_pow, Nat.testBit_shiftLeft, Nat.testBit_two_pow_sub_one]
  by_cases h1 : s ≤ j <;> by_cases h2 : j < s + n <;>
    simp [h1, h2] <;> omega

lemma sum_window (x s n i : Nat) (h : s + n ≤ 32) :
    (x + (i <<< s) % 2 ^ 32) % 2 ^ 32 / 2 ^ s % 2 ^ n
      = (x / 2 ^ s % 2 ^ n + i) % 2 ^ n := by
  have hsplit : (2:Nat) ^ 32 = 2 ^ s * 2 ^ (32 - s) := by
    rw [← pow_add]; congr 1; omega
  have hshift : (i <<< s) % 2 ^ 32 = i % 2 ^ (32 - s) * 2 ^ s := by
    rw [Nat.shiftLeft_eq, hsplit, Nat.mul_comm (2 ^ s) (2 ^ (32 - s)),
      Nat.mul_mod_mul_right]
  rw [hshift]
  rw [hsplit, Nat.mod_mul_right_div_self,
    Nat.add_mul_div_right _ _ (Nat.pos_pow_of_pos s (by norm_num)),
    Nat.mod_mod_of_dvd _ (pow_dvd_pow 2 (by omega))]
  conv_lhs => rw [Nat.add_mod, Nat.mod_mod_of_dvd i (pow_dvd_pow 2 (by omega)),
    ← Nat.add_mod]
  conv_lhs => rw [Nat.add_mod]
  conv_rhs => rw [Nat.add_mod, Nat.mod_mod_of_dvd (x / 2 ^ s) (dvd_refl (2 ^ n))]

/-! Claim theorems. -/

/-- C2: the classifier returns the minimum of the four corner heights as its
height, sets a corner's bit exactly when that corner's height differs from the
minimum, and returns the flat mask with height `h` when all four corners equal
`h`. -/
theorem classify_min_and_corner_bits (hn hw he hs : Int) :
    (GetTileSlopeGivenHeight hn hw he hs).2 = min4 hn hw he hs ∧
    (hasSlopeBit (GetTileSlopeGivenHeight hn hw he hs).1 SLOPE_N = true ↔
      hn ≠ min4 hn hw he hs) ∧
    (hasSlopeBit (GetTileSlopeGivenHeight hn hw he hs).1 SLOPE_W = true ↔
      hw ≠ min4 hn hw he hs) ∧
    (hasSlopeBit (GetTileSlopeGivenHeight hn hw he hs).1 SLOPE_E = true ↔
      he ≠ min4 hn hw he hs) ∧
    (hasSlopeBit (GetTileSlopeGivenHeight hn hw he hs).1 SLOPE_S = true ↔
      hs ≠ min4 hn hw he hs) ∧
    (∀ h : Int, GetTileSlopeGivenHeight h h h h = (SLOPE_FLAT, h)) := by
  refine ⟨classify_snd hn hw he hs, ?_, ?_, ?_, ?_, ?_⟩
  · rw [classify_hasN]; simp
  · rw [classify_hasW]; simp
  · rw [classify_hasE]; simp
  · rw [classify_hasS]; simp
  · intro h
    simp [GetTileSlopeGivenHeight, min4, max4, SLOPE_FLAT]

/-- C3: the steep bit of the classifier's mask is set if and only if the
difference between the maximum and the minimum of the four corner heights is
exactly 2. -/
theorem classify_steep_iff_spread_two (hn hw he hs : Int) :
    hasSlopeBit (GetTileSlopeGivenHeight hn hw he hs).1 SLOPE_STEEP = true ↔
      max4 hn hw he hs - min4 hn hw he hs = 2 := by
  rw [classify_hasSteep]; simp

/-- C8: permuting which corner holds which height changes neither the
returned minimum height, nor whether the mask is the flat mask, nor whether
the steep bit is set. -/
theorem classify_perm_invariant (v : Fin 4 → Int) (σ : Equiv.Perm (Fin 4)) :
    (GetTileSlopeGivenHeight (v (σ 0)) (v (σ 1)) (v (σ 2)) (v (σ 3))).2
      = (GetTileSlopeGivenHeight (v 0) (v 1) (v 2) (v 3)).2 ∧
    ((GetTileSlopeGivenHeight (v (σ 0)) (v (σ 1)) (v (σ 2)) (v (σ 3))).1 = SLOPE_FLAT ↔
      (GetTileSlopeGivenHeight (v 0) (v 1) (v 2) (v 3)).1 = SLOPE_FLAT) ∧
    hasSlopeBit (GetTileSlopeGivenHeight (v (σ 0)) (v (σ 1)) (v (σ 2)) (v (σ 3))).1 SLOPE_STEEP
      = hasSlopeBit (GetTileSlopeGivenHeight (v 0) (v 1) (v 2) (v 3)).1 SLOPE_STEEP := by
  refine ⟨?_, ?_, ?_⟩
  · rw [classify_snd, classify_snd, min4_comp_perm]
  · rw [classify_flat_iff_spread, classify_flat_iff_spread, min4_comp_perm, max4_comp_perm]
  · rw [classify_hasSteep, classify_hasSteep, min4_comp_perm, max4_comp_perm]

/-- C10: the classifier's mask never has all four corner bits set, and the
steep bit is never set without at least one corner bit. -/
theorem classify_mask_invariants (hn hw he hs : Int) :
    ¬(hasSlopeBit (GetTileSlopeGivenHeight hn hw he hs).1 SLOPE_N = true ∧
      hasSlopeBit (GetTileSlopeGivenHeight hn hw he hs).1 SLOPE_W = true ∧
      hasSlopeBit (GetTileSlopeGivenHeight hn hw he hs).1 SLOPE_E = true ∧
      hasSlopeBit (GetTileSlopeGivenHeight hn hw he hs).1 SLOPE_S = true) ∧
    (hasSlopeBit (GetTileSlopeGivenHeight hn hw he hs).1 SLOPE_STEEP = true →
      (hasSlopeBit (GetTileSlopeGivenHeight hn hw he hs).1 SLOPE_N = true ∨
       hasSlopeBit (GetTileSlopeGivenHeight hn hw he hs).1 SLOPE_W = true ∨
       hasSlopeBit (GetTileSlopeGivenHeight hn hw he hs).1 SLOPE_E = true ∨
       hasSlopeBit (GetTileSlopeGivenHeight hn hw he hs).1 SLOPE_S = true)) := by
  have hm := min4_le hn hw he hs
  have hmm := min4_mem hn hw he hs
  have hM := le_max4 hn hw he hs
  have hMm := max4_mem hn hw he hs
  rw [classify_hasN, classify_hasW, classify_hasE, classify_hasS, classify_hasSteep]
  simp only [decide_eq_true_eq]
  constructor
  · rintro ⟨a, b, c, d⟩
    omega
  · intro hst
    omega

/-- C10 witness: at corner heights (0, 0, 0, 2) the steep bit is set and the
south corner bit is set alongside it. -/
theorem classify_mask_invariants_witness :
    hasSlopeBit (GetTileSlopeGivenHeight 0 0 0 2).1 SLOPE_STEEP = true ∧
    (hasSlopeBit (GetTileSlopeGivenHeight 0 0 0 2).1 SLOPE_N = true ∨
     hasSlopeBit (GetTileSlopeGivenHeight 0 0 0 2).1 SLOPE_W = true ∨
     hasSlopeBit (GetTileSlopeGivenHeight 0 0 0 2).1 SLOPE_E = true ∨
     hasSlopeBit (GetTileSlopeGivenHeight 0 0 0 2).1 SLOPE_S = true) :=
  ⟨by decide, (classify_mask_invariants 0 0 0 2).2 (by decide)⟩

/-- C9: `AB` leaves every bit outside the window `[s, s + n)` unchanged and
replaces the window's value by the old value plus `i`, reduced modulo
`2 ^ n`. -/
theorem AB_window_add (x s n i : Nat) (hx : x < 2 ^ 32) (h : s + n ≤ 32) :
    (∀ j, j < s ∨ s + n ≤ j → (AB x s n i).testBit j = x.testBit j) ∧
    AB x s n i / 2 ^ s % 2 ^ n = (x / 2 ^ s % 2 ^ n + i) % 2 ^ n := by
  constructor
  · intro j hj
    unfold AB
    simp only [Nat.testBit_lor, Nat.testBit_land, Nat.testBit_xor,
      testBit_maskAB _ _ _ h, Nat.testBit_two_pow_sub_one]
    have hmb : decide (s ≤ j ∧ j < s + n) = false := by
      simp; omega
    rw [hmb]
    by_cases hj32 : j < 32
    · simp [hj32]
    · have hxj : x.testBit j = false := by
        apply Nat.testBit_lt_two_pow
        calc x < 2 ^ 32 := hx
          _ ≤ 2 ^ j := Nat.pow_le_pow_right (by norm_num) (by omega)
      simp [hj32, hxj]
  · have habs : AB x s n i / 2 ^ s % 2 ^ n
        = (x + (i <<< s) % 2 ^ 32) % 2 ^ 32 / 2 ^ s % 2 ^ n := by
      apply Nat.eq_of_testBit_eq
      intro j
      rw [← Nat.shiftRight_eq_div_pow, ← Nat.shiftRight_eq_div_pow]
      simp only [Nat.testBit_mod_two_pow, Nat.testBit_shiftRight]
      by_cases hjn : j < n
      · have hjn' : decide (j < n) = true := by simp [hjn]
        rw [hjn']
        unfold AB
        simp only [Nat.testBit_lor, Nat.testBit_land, Nat.testBit_xor,
          testBit_maskAB _ _ _ h, Nat.testBit_two_pow_sub_one,
          Nat.testBit_mod_two_pow]
        have hmb : decide (s ≤ s + j ∧ s + j < s + n) = true := by simp; omega
        have h32 : decide (s + j < 32) = true := by simp; omega
        rw [hmb, h32]
        cases hb : (x + i <<< s % 2 ^ 32).testBit (s + j) <;>
          cases hxb : x.testBit (s + j) <;> rfl
      · have hjn' : decide (j < n) = false := by simp [hjn]
        rw [hjn']
        simp
    rw [habs, sum_window x s n i h]

/-- C9 witness: `AB` at `x = 43981`, `s = 4`, `n = 8`, `i = 511` keeps bit 0
and sets the window to the wrapped sum. -/
theorem AB_window_add_witness :
    (43981 : Nat) < 2 ^ 32 ∧ 4 + 8 ≤ 32 ∧
    (AB 43981 4 8 511).testBit 0 = (43981 : Nat).testBit 0 ∧
    AB 43981 4 8 511 / 2 ^ 4 % 2 ^ 8 = (43981 / 2 ^ 4 % 2 ^ 8 + 511) % 2 ^ 8 :=
  ⟨by decide, by decide,
    (AB_window_add 43981 4 8 511 (by decide) (by decide)).1 0 (Or.inl (by decide)),
    (AB_window_add 43981 4 8 511 (by decide) (by decide)).2⟩

/-- C2 witness: instantiating the corner-bit description at heights
(2, 3, 2, 2) and the all-equal case at height 2. -/
theorem classify_min_and_corner_bits_witness :
    (GetTileSlopeGivenHeight 2 3 2 2).2 = min4 2 3 2 2 ∧
    GetTileSlopeGivenHeight 2 2 2 2 = (SLOPE_FLAT, 2) :=
  ⟨(classify_min_and_corner_bits 2 3 2 2).1,
    (classify_min_and_corner_bits 2 3 2 2).2.2.2.2.2 2⟩

/-- C3 witness: at heights (2, 4, 2, 2) the spread is 2 and the steep bit is
set. -/
theorem classify_steep_iff_spread_two_witness :
    hasSlopeBit (GetTileSlopeGivenHeight 2 4 2 2).1 SLOPE_STEEP = true :=
  (classify_steep_iff_spread_two 2 4 2 2).mpr (by decide)

/-- C8 witness: the invariance instantiated at the swap of the first two
corners of the heights (2, 3, 2, 2). -/
theorem classify_perm_invariant_witness :
    (GetTileSlopeGivenHeight ((fun k : Fin 4 => if k = 1 then (3:Int) else 2) (Equiv.swap 0 1 0))
        ((fun k : Fin 4 => if k = 1 then (3:Int) else 2) (Equiv.swap 0 1 1))
        ((fun k : Fin 4 => if k = 1 then (3:Int) else 2) (Equiv.swap 0 1 2))
        ((fun k : Fin 4 => if k = 1 then (3:Int) else 2) (Equiv.swap 0 1 3))).2
      = (GetTileSlopeGivenHeight 2 3 2 2).2 :=
  (classify_perm_invariant (fun k : Fin 4 => if k = 1 then (3:Int) else 2) (Equiv.swap 0 1)).1

/-- C4: a tile that is not an inner tile gets the flat slope and its own
stored height, regardless of the height-map elsewhere. -/
theorem getTileSlope_edge_flat (m : Map) (t : Nat) (ht : t < m.MapSize)
    (hedge : m.IsInnerTile t = false) :
    m.GetTileSlope t = (SLOPE_FLAT, (m.height t : Int)) := by
  simp [Map.GetTileSlope, hedge]

/-- C4 witness: tile 1 of the 2×2 example map is on the max-X row and gets
the flat slope with its stored height 1. -/
theorem getTileSlope_edge_flat_witness :
    1 < exMap.MapSize ∧ exMap.IsInnerTile 1 = false ∧
    exMap.GetTileSlope 1 = (SLOPE_FLAT, (exMap.height 1 : Int)) :=
  ⟨by decide, by decide, getTileSlope_edge_flat exMap 1 (by decide) (by decide)⟩

/-- C5: `IsTileFlat` answers true exactly when `GetTileSlope` yields the flat
mask, and the height it then stores is the height `GetTileSlope` stores. -/
theorem isTileFlat_iff_slope_flat (m : Map) (t : Nat) (ht : t < m.MapSize) :
    ((m.IsTileFlat t).1 = true ↔ (m.GetTileSlope t).1 = SLOPE_FLAT) ∧
    ((m.IsTileFlat t).1 = true → (m.IsTileFlat t).2 = some (m.GetTileSlope t).2) := by
  by_cases hin : m.IsInnerTile t = true
  · constructor
    · simp only [Map.IsTileFlat, Map.GetTileSlope, hin, Bool.not_true,
        Bool.false_eq_true, if_false]
      rw [classify_flat_iff]
      by_cases h1 : m.height (t + m.TileDiffXY 1 0) = m.height t <;>
      by_cases h2 : m.height (t + m.TileDiffXY 0 1) = m.height t <;>
      by_cases h3 : m.height (t + m.TileDiffXY 1 1) = m.height t <;>
        simp [h1, h2, h3]
    · intro hflat
      simp only [Map.IsTileFlat, hin, Bool.not_true, Bool.false_eq_true,
        if_false] at hflat ⊢
      by_cases h1 : m.height (t + m.TileDiffXY 1 0) = m.height t <;>
      by_cases h2 : m.height (t + m.TileDiffXY 0 1) = m.height t <;>
      by_cases h3 : m.height (t + m.TileDiffXY 1 1) = m.height t <;>
        simp [h1, h2, h3] at hflat ⊢ <;>
        simp [Map.GetTileSlope, hin, classify_snd, h1, h2, h3, min4]
  · rw [Bool.not_eq_true] at hin
    simp [Map.IsTileFlat, Map.GetTileSlope, hin, SLOPE_FLAT]

/-- C5 witness: the equivalence instantiated at the 2×2 example map's inner
tile 0, whose four corners all store height 1. -/
theorem isTileFlat_iff_slope_flat_witness :
    0 < exMap.MapSize ∧
    ((exMap.IsTileFlat 0).1 = true ↔ (exMap.GetTileSlope 0).1 = SLOPE_FLAT) ∧
    ((exMap.IsTileFlat 0).1 = true → (exMap.IsTileFlat 0).2 = some (exMap.GetTileSlope 0).2) :=
  ⟨by decide, (isTileFlat_iff_slope_flat exMap 0 (by decide)).1,
    (isTileFlat_iff_slope_flat exMap 0 (by decide)).2⟩

/-- C6: the outside-map resolver returns the classifier's mask on the four
outside-map corner heights and the classifier's minimum height scaled by
`TILE_HEIGHT`, while the inner resolver stores the unscaled minimum. -/
theorem outside_slope_scaled (m : Map) (x y : Int) :
    (m.GetTilePixelSlopeOutsideMap x y).1
      = (GetTileSlopeGivenHeight (m.outsideHeight x y) (m.outsideHeight (x + 1) y)
          (m.outsideHeight x (y + 1)) (m.outsideHeight (x + 1) (y + 1))).1 ∧
    (m.GetTilePixelSlopeOutsideMap x y).2
      = (GetTileSlopeGivenHeight (m.outsideHeight x y) (m.outsideHeight (x + 1) y)
          (m.outsideHeight x (y + 1)) (m.outsideHeight (x + 1) (y + 1))).2 * TILE_HEIGHT ∧
    (∀ t : Nat, m.IsInnerTile t = true →
      (m.GetTileSlope t).2
        = (GetTileSlopeGivenHeight (m.height t) (m.height (t + m.TileDiffXY 1 0))
            (m.height (t + m.TileDiffXY 0 1)) (m.height (t + m.TileDiffXY 1 1))).2) := by
  refine ⟨rfl, rfl, ?_⟩
  intro t hinner
  simp [Map.GetTileSlope, hinner]

/-- C6 witness: the outside resolver at (0, 0) on the 2×2 example map scales
its height by `TILE_HEIGHT`, and the inner resolver at inner tile 0 stores
the unscaled classifier height. -/
theorem outside_slope_scaled_witness :
    (exMap.GetTilePixelSlopeOutsideMap 0 0).2
      = (GetTileSlopeGivenHeight (exMap.outsideHeight 0 0) (exMap.outsideHeight 1 0)
          (exMap.outsideHeight 0 1) (exMap.outsideHeight 1 1)).2 * TILE_HEIGHT ∧
    (exMap.GetTileSlope 0).2
      = (GetTileSlopeGivenHeight (exMap.height 0) (exMap.height (0 + exMap.TileDiffXY 1 0))
          (exMap.height (0 + exMap.TileDiffXY 0 1)) (exMap.height (0 + exMap.TileDiffXY 1 1))).2 :=
  ⟨(outside_slope_scaled exMap 0 0).2.1,
    (outside_slope_scaled exMap 0 0).2.2 0 (by decide)⟩

/-- C7: `GetTileMaxZ` returns the outside-map height function at the tile's
coordinates for tiles on the max-X or max-Y row, and the maximum of the four
corner heights for interior tiles. -/
theorem getTileMaxZ_characterisation (m : Map) (t : Nat) (ht : t < m.MapSize) :
    ((m.TileX t = m.MapMaxX ∨ m.TileY t = m.MapMaxY) →
      m.GetTileMaxZ t = (m.outsideHeight (m.TileX t) (m.TileY t) : Int)) ∧
    (m.TileX t ≠ m.MapMaxX → m.TileY t ≠ m.MapMaxY →
      m.GetTileMaxZ t = max4 (m.height t) (m.height (t + m.TileDiffXY 1 0))
        (m.height (t + m.TileDiffXY 0 1)) (m.height (t + m.TileDiffXY 1 1))) := by
  constructor
  · intro hedge
    simp [Map.GetTileMaxZ, hedge]
  · intro hx hy
    simp only [Map.GetTileMaxZ, hx, hy, or_self, if_false, max4]
    omega

/-- C7 witness: on the 2×2 example map tile 1 is on the max-X row and
`GetTileMaxZ` returns the outside-map height 3 there, not the stored inner
height 1; interior tile 0 returns the maximum of its four corners. -/
theorem getTileMaxZ_characterisation_witness :
    exMap.GetTileMaxZ 1 = (exMap.outsideHeight (exMap.TileX 1) (exMap.TileY 1) : Int) ∧
    exMap.GetTileMaxZ 1 = 3 ∧ exMap.height 1 = 1 ∧
    exMap.GetTileMaxZ 0 = max4 (exMap.height 0) (exMap.height (0 + exMap.TileDiffXY 1 0))
      (exMap.height (0 + exMap.TileDiffXY 0 1)) (exMap.height (0 + exMap.TileDiffXY 1 1)) :=
  ⟨(getTileMaxZ_characterisation exMap 1 (by decide)).1 (by decide),
    by decide, by decide,
    (getTileMaxZ_characterisation exMap 0 (by decide)).2 (by decide) (by decide)⟩

/-- C1 counterexample: tile 1 of the 2×2 example map lies on the max-X row
and stores height 1, yet `GetTileZ` returns 0 — not the tile's stored
height as the claim states. -/
theorem getTileZ_edge_stored_cex :
    exMap.TileX 1 = exMap.MapMaxX ∧ exMap.height 1 = 1 ∧ exMap.GetTileZ 1 = 0 ∧
    exMap.GetTileZ 1 ≠ (exMap.height 1 : Int) := by
  decide

/-- C1 (amended): `GetTileZ` returns 0 for every tile on the max-X or max-Y
row, and the minimum of the four corner heights for every interior tile. -/
theorem getTileZ_characterisation (m : Map) (t : Nat) (ht : t < m.MapSize) :
    ((m.TileX t = m.MapMaxX ∨ m.TileY t = m.MapMaxY) → m.GetTileZ t = 0) ∧
    (m.TileX t ≠ m.MapMaxX → m.TileY t ≠ m.MapMaxY →
      m.GetTileZ t = min4 (m.height t) (m.height (t + m.TileDiffXY 1 0))
        (m.height (t + m.TileDiffXY 0 1)) (m.height (t + m.TileDiffXY 1 1))) := by
  constructor
  · intro hedge
    simp [Map.GetTileZ, hedge]
  · intro hx hy
    simp only [Map.GetTileZ, hx, hy, or_self, if_false, min4]
    omega

/-- C1 witness: on the 2×2 example map the edge tile 1 yields 0 and the
interior tile 0 yields the minimum of its four corners. -/
theorem getTileZ_characterisation_witness :
    exMap.GetTileZ 1 = 0 ∧
    exMap.GetTileZ 0 = min4 (exMap.height 0) (exMap.height (0 + exMap.TileDiffXY 1 0))
      (exMap.height (0 + exMap.TileDiffXY 0 1)) (exMap.height (0 + exMap.TileDiffXY 1 1)) :=
  ⟨(getTileZ_characterisation exMap 1 (by decide)).1 (by decide),
    (getTileZ_characterisation exMap 0 (by decide)).2 (by decide) (by decide)⟩

end OTTD
